import Mathlib

/-!
Shallow embedding of the gossip broadcast node from
crates/gossip/src/node.rs and crates/gossip/src/request.rs.

MessageIds (Rust u64) are modelled as natural numbers: the node never performs
arithmetic on them, only equality tests and set membership, so no wrap-around
is observable.  PeerIds are strings, as in the source.  The HashSet of seen
messages and the HashSet values of the unacked map become Finsets; the unacked
HashMap becomes a function to Option (Finset String); the neighbours Vec stays
a list.  The async runtime is factored out: an inbound delivery is a pure step
on the node state that also reports the outbound effect (reply, reply_ok, exit
dispatch, or a panic from unwrap) and whether a retry task was spawned.  The
retry task's loop body becomes a pure step whose random shuffle is supplied as
an explicit list parameter, and whose lock/RPC interleaving is recorded as an
event trace read off the Rust block structure.
-/

namespace Gossip

/-- The wire request schema from request.rs. -/
inductive Request where
  | Init : Request
  | Read : Request
  | ReadOk : List Nat → Request
  | Broadcast : Nat → Request
  | Topology : List (String × List String) → Request
deriving DecidableEq

/-- NodeState from node.rs: the seen set, the neighbour list, and the map of
message id to the set of neighbours that have not acknowledged it. -/
structure NodeState where
  seen : Finset Nat
  neighbours : List String
  unacked : Nat → Option (Finset String)

/-- The number of random peers to select for gossiping (RANDOM_PEER_COUNT). -/
def RANDOM_PEER_COUNT : Nat := 3

/-- GossipNode::new: empty seen set, given neighbours, empty unacked map. -/
def GossipNode.new (neighbours : List String) : NodeState :=
  { seen := ∅, neighbours := neighbours, unacked := fun _ => none }

/-- The outward effect of one process invocation: a typed reply, the empty-OK
reply, dispatch to runtime.exit, or a panic (unwrap of None). -/
inductive Effect where
  | reply : Request → Effect
  | replyOk : Effect
  | exit : Effect
  | panicked : Effect
deriving DecidableEq

/-- Result of one process invocation: the updated state, the effect emitted,
and whether a retry task was spawned for the message. -/
structure ProcResult where
  state : NodeState
  effect : Effect
  armed : Bool

/-- GossipNode::snapshot: a copy of the seen set as a list.  The HashSet
iteration order is arbitrary; we enumerate in increasing order. -/
def snapshot (st : NodeState) : List Nat :=
  st.seen.sort (· ≤ ·)

/-- GossipNode::try_add: insert and return true when the value is new,
otherwise return false and leave the state alone. -/
def try_add (st : NodeState) (value : Nat) : NodeState × Bool :=
  if value ∉ st.seen then ({ st with seen := insert value st.seen }, true)
  else (st, false)

/-- HashMap::get on the topology map, as association-list lookup. -/
def mapGet (key : String) : List (String × List String) → Option (List String)
  | [] => none
  | (k, v) :: rest => if k = key then some v else mapGet key rest

/-- GossipNode::process: dispatch one inbound message.  The argument is
Option Request; none stands for a body that failed to parse, which the
source's catch-all arm routes to runtime.exit together with Init and
ReadOk. -/
def process (nodeId : String) (st : NodeState) (src : String)
    (msg : Option Request) : ProcResult :=
  match msg with
  | some Request.Read =>
      { state := st, effect := Effect.reply (Request.ReadOk (snapshot st)),
        armed := false }
  | some (Request.Broadcast message) =>
      let sender := src
      let r := try_add st message
      if r.2 then
        let st1 := r.1
        let nbrs := (st1.neighbours.toFinset).erase sender
        let st2 := { st1 with
          unacked := fun k => if k = message then some nbrs else st1.unacked k }
        { state := st2, effect := Effect.replyOk, armed := true }
      else
        { state := r.1, effect := Effect.replyOk, armed := false }
  | some (Request.Topology topology) =>
      match mapGet nodeId topology with
      | some nbrs =>
          { state := { st with neighbours := nbrs }, effect := Effect.replyOk,
            armed := false }
      | none => { state := st, effect := Effect.panicked, armed := false }
  | _ => { state := st, effect := Effect.exit, armed := false }

/-- The retry loop's break test: unacked.get(msg).map_or(true, is_empty). -/
def pendingEmpty (st : NodeState) (msg : Nat) : Bool :=
  match st.unacked msg with
  | none => true
  | some un => decide (un = ∅)

/-- unacked.remove(msg), run by the retry task after its loop exits. -/
def clearUnacked (st : NodeState) (msg : Nat) : NodeState :=
  { st with unacked := fun k => if k = msg then none else st.unacked k }

/-- One iteration of GossipNode::retry's loop.  The random shuffle of the
pending peers is supplied as the list argument; the result is the updated
state, the list of peers sent an outbound broadcast RPC this iteration, and
whether the loop terminated (break followed by the final remove). -/
def retryIter (st : NodeState) (msg : Nat) (shuffled : List String) :
    NodeState × List String × Bool :=
  if pendingEmpty st msg then (clearUnacked st msg, [], true)
  else (st, shuffled.take RANDOM_PEER_COUNT, false)

/-- Observable events of one retry-loop iteration, used to reason about the
lock discipline. -/
inductive Event where
  | lock : Event
  | unlock : Event
  | snapshot : Event
  | rpc : String → Event
  | sleepEv : Event
  | clear : Event
deriving DecidableEq

/-- The event trace of one retry-loop iteration, read off the Rust block
structure: the mutex guard is created at the top of the inner block and
dropped at its end, which in the sending case is after the execute_rpc loop;
on break the guard drops and the task reacquires the lock to remove the
entry. -/
def retryIterEvents (st : NodeState) (msg : Nat) (shuffled : List String) :
    List Event :=
  if pendingEmpty st msg then
    [Event.lock, Event.unlock, Event.lock, Event.clear, Event.unlock]
  else
    Event.lock :: Event.snapshot ::
      ((shuffled.take RANDOM_PEER_COUNT).map Event.rpc ++
        [Event.unlock, Event.sleepEv])

/-- Invariant: every key of the unacked map is in the seen set. -/
def UnackedSubsetSeen (st : NodeState) : Prop :=
  ∀ m s, st.unacked m = some s → m ∈ st.seen

/-- Deliver a sequence of broadcast deliveries of the same message id, one per
listed sender, counting how many of them spawned a retry task. -/
def deliverSeq (nodeId : String) (st : NodeState) (m : Nat) :
    List String → NodeState × Nat
  | [] => (st, 0)
  | src :: rest =>
      let r := process nodeId st src (some (Request.Broadcast m))
      let after := deliverSeq nodeId r.state m rest
      (after.1, (if r.armed then 1 else 0) + after.2)

/-- A concrete state used to instantiate claims: message 5 was accepted and
its pending set still holds the single neighbour n2. -/
def exSt : NodeState :=
  { seen := {5}, neighbours := ["n2"],
    unacked := fun k => if k = 5 then some {"n2"} else none }

/-! ### Basic reduction lemmas -/

theorem process_broadcast_of_seen (nodeId : String) (st : NodeState)
    (src : String) (m : Nat) (hm : m ∈ st.seen) :
    process nodeId st src (some (Request.Broadcast m)) =
      ⟨st, Effect.replyOk, false⟩ := by
  simp [process, try_add, hm]

theorem process_broadcast_of_new (nodeId : String) (st : NodeState)
    (src : String) (m : Nat) (hm : m ∉ st.seen) :
    process nodeId st src (some (Request.Broadcast m)) =
      ⟨{ seen := insert m st.seen, neighbours := st.neighbours,
         unacked := fun k =>
           if k = m then some ((st.neighbours.toFinset).erase src)
           else st.unacked k },
        Effect.replyOk, true⟩ := by
  simp [process, try_add, hm]

/-! ### Claim theorems -/

/-- C10: processing a read request returns the state untouched: the seen set,
the neighbour list and the unacked map are all unchanged. -/
theorem read_preserves_state (nodeId : String) (st : NodeState) (src : String) :
    (process nodeId st src (some Request.Read)).state = st := rfl

/-- C9: a read request is answered with a ReadOk reply whose messages field
holds exactly the elements of the current seen set, without duplicates. -/
theorem read_reply_is_seen_set (nodeId : String) (st : NodeState)
    (src : String) :
    ∃ l, (process nodeId st src (some Request.Read)).effect =
        Effect.reply (Request.ReadOk l) ∧
      (∀ x, x ∈ l ↔ x ∈ st.seen) ∧ l.Nodup := by
  refine ⟨snapshot st, rfl, ?_, ?_⟩
  · intro x
    exact Finset.mem_sort (· ≤ ·)
  · exact Finset.sort_nodup (· ≤ ·) st.seen

/-- C5: when a broadcast of a new message m from sender src is accepted, the
unacked entry created for m is the current neighbour set minus the sender,
so the initial pending set never contains the sender. -/
theorem accepted_pending_excludes_sender (nodeId : String) (st : NodeState)
    (src : String) (m : Nat) (hm : m ∉ st.seen) :
    (process nodeId st src (some (Request.Broadcast m))).state.unacked m =
      some (st.neighbours.toFinset \ {src}) ∧
    src ∉ st.neighbours.toFinset \ {src} := by
  rw [process_broadcast_of_new nodeId st src m hm]
  refine ⟨?_, by simp⟩
  simp [Finset.erase_eq]

theorem accepted_pending_excludes_sender_witness :
    (process ("n1") (GossipNode.new ["n2", "n3"]) ("n2")
        (some (Request.Broadcast 7))).state.unacked 7 =
      some ((["n2", "n3"] : List String).toFinset \ {"n2"}) ∧
    ("n2" : String) ∉ (["n2", "n3"] : List String).toFinset \ {"n2"} :=
  accepted_pending_excludes_sender ("n1") (GossipNode.new ["n2", "n3"]) ("n2")
    7 (by decide)

/-- C1 (amended): every unacked entry created at acceptance time excludes the
original sender of the accepted broadcast.  The code removes only the sender
from the neighbour set, so the node's own identity is not specially excluded
(see the counterexample). -/
theorem pending_excludes_sender_at_acceptance (nodeId : String)
    (st : NodeState) (src : String) (m : Nat) (s : Finset String)
    (hm : m ∉ st.seen)
    (hs : (process nodeId st src (some (Request.Broadcast m))).state.unacked m
      = some s) :
    src ∉ s := by
  rw [process_broadcast_of_new nodeId st src m hm] at hs
  simp only [eq_self_iff_true, if_true, Option.some.injEq] at hs
  rw [← hs]
  exact Finset.not_mem_erase src _

theorem pending_excludes_sender_at_acceptance_witness :
    ("c1" : String) ∉ ((["n2"] : List String).toFinset.erase ("c1")) :=
  pending_excludes_sender_at_acceptance ("n1") (GossipNode.new ["n2"]) ("c1")
    7 ((["n2"] : List String).toFinset.erase ("c1")) (by decide) (by decide)

/-- C1 counterexample: after a topology whose peer list for this node contains
the node's own identity n1, accepting a broadcast from a third party puts n1
into the pending set, so the claimed self-exclusion fails. -/
theorem self_exclusion_counterexample :
    ("n1" : String) ∈
      ((process ("n1")
            (process ("n1") (GossipNode.new []) ("c1")
              (some (Request.Topology [("n1", ["n1", "n2"])]))).state
            ("c1") (some (Request.Broadcast 42))).state.unacked 42).getD ∅ :=
  by decide

/-- C2 (amended): when the topology map has no entry for this node's identity,
the handler panics (unwrap of None) before mutating state and sends no reply;
the effect is not the runtime exit dispatch. -/
theorem topology_missing_self_panics (nodeId : String) (st : NodeState)
    (src : String) (top : List (String × List String))
    (h : mapGet nodeId top = none) :
    process nodeId st src (some (Request.Topology top)) =
      ⟨st, Effect.panicked, false⟩ ∧
    Effect.panicked ≠ Effect.exit ∧ Effect.panicked ≠ Effect.replyOk ∧
    ∀ r, Effect.panicked ≠ Effect.reply r := by
  refine ⟨by simp [process, h], by decide, by decide, fun r => by simp⟩

theorem topology_missing_self_panics_witness :
    process ("n1") (GossipNode.new []) ("c1")
        (some (Request.Topology [("n2", ["n1"])])) =
      ⟨GossipNode.new [], Effect.panicked, false⟩ ∧
    Effect.panicked ≠ Effect.exit ∧ Effect.panicked ≠ Effect.replyOk ∧
    ∀ r, Effect.panicked ≠ Effect.reply r :=
  topology_missing_self_panics ("n1") (GossipNode.new []) ("c1")
    [("n2", ["n1"])] (by decide)

/-- C2 counterexample: on a topology lacking this node's identity the effect
is the panic, not the runtime exit dispatch the claim asserts. -/
theorem topology_missing_self_counterexample :
    (process ("n1") (GossipNode.new []) ("c1")
        (some (Request.Topology [("n2", ["n1"])]))).effect ≠ Effect.exit ∧
    (process ("n1") (GossipNode.new []) ("c1")
        (some (Request.Topology [("n2", ["n1"])]))).effect = Effect.panicked :=
  by decide

theorem deliverSeq_of_seen (nodeId : String) (st : NodeState) (m : Nat)
    (srcs : List String) (hm : m ∈ st.seen) :
    deliverSeq nodeId st m srcs = (st, 0) := by
  induction srcs with
  | nil => rfl
  | cons src rest ih =>
      simp [deliverSeq, process_broadcast_of_seen nodeId st src m hm, ih]

/-- C4: over any nonempty sequence of broadcast deliveries of the same new
message id m, the final seen set contains m exactly once and exactly one
delivery armed a retry task; a delivery of an already-seen m replies with the
empty OK, changes nothing, and arms no retry task. -/
theorem broadcast_idempotent :
    (∀ nodeId st m srcs, m ∉ st.seen → srcs ≠ [] →
      m ∈ (deliverSeq nodeId st m srcs).1.seen ∧
      (deliverSeq nodeId st m srcs).1.seen.val.count m = 1 ∧
      (deliverSeq nodeId st m srcs).2 = 1) ∧
    (∀ nodeId st src m, m ∈ st.seen →
      process nodeId st src (some (Request.Broadcast m)) =
        ⟨st, Effect.replyOk, false⟩) := by
  constructor
  · intro nodeId st m srcs hm hne
    match srcs with
    | [] => exact absurd rfl hne
    | src :: rest =>
        have hmem : m ∈ insert m st.seen := Finset.mem_insert_self m st.seen
        simp only [deliverSeq, process_broadcast_of_new nodeId st src m hm]
        rw [deliverSeq_of_seen nodeId _ m rest hmem]
        refine ⟨hmem, ?_, rfl⟩
        exact Multiset.count_eq_one_of_mem (insert m st.seen).nodup hmem
  · exact process_broadcast_of_seen

theorem broadcast_idempotent_witness :
    (42 : Nat) ∈ (deliverSeq ("n1") (GossipNode.new ["n2"]) 42
        ["c1", "n2"]).1.seen ∧
    (deliverSeq ("n1") (GossipNode.new ["n2"]) 42 ["c1", "n2"]).1.seen.val.count
        42 = 1 ∧
    (deliverSeq ("n1") (GossipNode.new ["n2"]) 42 ["c1", "n2"]).2 = 1 :=
  broadcast_idempotent.1 ("n1") (GossipNode.new ["n2"]) 42 ["c1", "n2"]
    (by decide) (by decide)

/-- C7: every handler branch and every retry-loop step preserves the
invariant that each key of the unacked map is in the seen set. -/
theorem unacked_subset_seen_preserved :
    (∀ nodeId st src msg, UnackedSubsetSeen st →
      UnackedSubsetSeen (process nodeId st src msg).state) ∧
    (∀ st m shuffled, UnackedSubsetSeen st →
      UnackedSubsetSeen (retryIter st m shuffled).1) := by
  constructor
  · intro nodeId st src msg h
    match msg with
    | none => exact h
    | some Request.Init => exact h
    | some Request.Read => exact h
    | some (Request.ReadOk l) => exact h
    | some (Request.Broadcast m) =>
        by_cases hm : m ∈ st.seen
        · rw [process_broadcast_of_seen nodeId st src m hm]; exact h
        · rw [process_broadcast_of_new nodeId st src m hm]
          intro k s hk
          simp only at hk
          by_cases hkm : k = m
          · subst hkm
            exact Finset.mem_insert_self k st.seen
          · rw [if_neg hkm] at hk
            exact Finset.mem_insert_of_mem (h k s hk)
    | some (Request.Topology top) =>
        cases htop : mapGet nodeId top with
        | some nbrs =>
            intro k s hk
            simp only [process, htop] at hk ⊢
            exact h k s hk
        | none =>
            intro k s hk
            simp only [process, htop] at hk ⊢
            exact h k s hk
  · intro st m shuffled h
    by_cases he : pendingEmpty st m = true
    · simp only [retryIter, he, if_true]
      intro k s hk
      simp only [clearUnacked] at hk
      by_cases hkm : k = m
      · rw [if_pos hkm] at hk
        exact absurd hk (by simp)
      · rw [if_neg hkm] at hk
        exact h k s hk
    · have he2 : pendingEmpty st m = false := by simpa using he
      simp only [retryIter, he2, Bool.false_eq_true, if_false]
      exact h

theorem unacked_subset_seen_preserved_witness :
    UnackedSubsetSeen (process ("n1") (GossipNode.new []) ("c1")
      (some (Request.Broadcast 1))).state :=
  unacked_subset_seen_preserved.1 ("n1") (GossipNode.new []) ("c1")
    (some (Request.Broadcast 1)) (fun _ _ hms => Option.noConfusion hms)

/-- C6: a retry iteration that finds the pending set empty or absent breaks
out of the loop, sends no RPC, and removes the entry before returning; a
broadcast accepted while the neighbour list is empty drains this way on the
very first iteration. -/
theorem retry_drain_terminates :
    (∀ st m shuffled, (st.unacked m = none ∨ st.unacked m = some ∅) →
      retryIter st m shuffled = (clearUnacked st m, [], true) ∧
      (retryIter st m shuffled).1.unacked m = none) ∧
    (∀ nodeId st src m shuffled, st.neighbours = [] → m ∉ st.seen →
      retryIter (process nodeId st src
          (some (Request.Broadcast m))).state m shuffled =
        (clearUnacked (process nodeId st src
          (some (Request.Broadcast m))).state m, [], true) ∧
      (retryIter (process nodeId st src
          (some (Request.Broadcast m))).state m shuffled).2.1 = []) := by
  have hdrain : ∀ st m shuffled,
      (st.unacked m = none ∨ st.unacked m = some ∅) →
      retryIter st m shuffled = (clearUnacked st m, [], true) ∧
      (retryIter st m shuffled).1.unacked m = none := by
    intro st m shuffled h
    have hpe : pendingEmpty st m = true := by
      cases h with
      | inl h1 => simp [pendingEmpty, h1]
      | inr h2 => simp [pendingEmpty, h2]
    constructor
    · simp [retryIter, hpe]
    · simp [retryIter, hpe, clearUnacked]
  refine ⟨hdrain, ?_⟩
  intro nodeId st src m shuffled hnb hm
  have hun : (process nodeId st src
      (some (Request.Broadcast m))).state.unacked m = some ∅ := by
    rw [process_broadcast_of_new nodeId st src m hm]
    simp [hnb]
  have h2 := hdrain (process nodeId st src
    (some (Request.Broadcast m))).state m shuffled (Or.inr hun)
  exact ⟨h2.1, by rw [h2.1]⟩

theorem retry_drain_terminates_witness :
    retryIter (GossipNode.new []) 0 [] =
      (clearUnacked (GossipNode.new []) 0, [], true) ∧
    (retryIter (GossipNode.new []) 0 []).1.unacked 0 = none :=
  retry_drain_terminates.1 (GossipNode.new []) 0 [] (Or.inl rfl)

/-- C8: a retry iteration sends outbound broadcast RPCs to at most
RANDOM_PEER_COUNT = 3 targets, each drawn from the current pending set of the
message (the shuffled enumeration of that set, first three taken). -/
theorem retry_fanout_bounded (st : NodeState) (m : Nat) (un : Finset String)
    (shuffled : List String) (_hun : st.unacked m = some un)
    (hsh : ∀ x ∈ shuffled, x ∈ un) :
    (retryIter st m shuffled).2.1.length ≤ RANDOM_PEER_COUNT ∧
    RANDOM_PEER_COUNT = 3 ∧
    ∀ x ∈ (retryIter st m shuffled).2.1, x ∈ un := by
  by_cases he : pendingEmpty st m = true
  · simp [retryIter, he, RANDOM_PEER_COUNT]
  · have he2 : pendingEmpty st m = false := by simpa using he
    simp only [retryIter, he2, Bool.false_eq_true, if_false]
    refine ⟨?_, rfl, ?_⟩
    · simp [List.length_take]
    · intro x hx
      exact hsh x (List.take_subset RANDOM_PEER_COUNT shuffled hx)

theorem retry_fanout_bounded_witness :
    (retryIter exSt 5 ["n2"]).2.1.length ≤ RANDOM_PEER_COUNT ∧
    RANDOM_PEER_COUNT = 3 ∧
    ∀ x ∈ (retryIter exSt 5 ["n2"]).2.1, x ∈ ({"n2"} : Finset String) :=
  retry_fanout_bounded exSt 5 {"n2"} ["n2"] (by decide) (by decide)

/-- C3 (amended): in every retry-loop iteration the pending snapshot and all
outbound RPCs happen between the lock acquisition that opens the iteration
and the matching release: the trace is the lock, then a lock-held segment
holding every RPC (and, in the sending case, the snapshot), then the
release.  The lock is therefore still held while the RPCs are issued. -/
theorem retry_rpcs_under_lock (st : NodeState) (m : Nat)
    (shuffled : List String) :
    ∃ pre post,
      retryIterEvents st m shuffled =
        Event.lock :: (pre ++ Event.unlock :: post) ∧
      Event.unlock ∉ pre ∧
      (∀ d, Event.rpc d ∈ retryIterEvents st m shuffled →
        Event.rpc d ∈ pre) ∧
      (pendingEmpty st m = false → Event.snapshot ∈ pre) := by
  by_cases he : pendingEmpty st m = true
  · refine ⟨[], [Event.lock, Event.clear, Event.unlock], ?_, ?_, ?_, ?_⟩
    · simp [retryIterEvents, he]
    · simp
    · intro d hd
      simp [retryIterEvents, he] at hd
    · intro hf
      rw [he] at hf
      exact Bool.noConfusion hf
  · have he2 : pendingEmpty st m = false := by simpa using he
    refine ⟨Event.snapshot ::
      (shuffled.take RANDOM_PEER_COUNT).map Event.rpc, [Event.sleepEv],
      ?_, ?_, ?_, ?_⟩
    · simp [retryIterEvents, he2]
    · intro hmem
      rcases List.mem_cons.mp hmem with h | h
      · exact Event.noConfusion h
      · rcases List.mem_map.mp h with ⟨a, _, ha⟩
        exact Event.noConfusion ha
    · intro d hd
      simp only [retryIterEvents, he2, Bool.false_eq_true, if_false,
        List.mem_cons, List.mem_append, List.mem_map] at hd
      simp only [List.mem_cons, List.mem_map]
      rcases hd with h1 | h1 | h1 | h1
      · exact absurd h1 (by simp)
      · exact absurd h1 (by simp)
      · rcases h1 with ⟨a, ha, haeq⟩
        exact Or.inr ⟨a, ha, haeq⟩
      · exact absurd h1 (by simp)
    · intro
      exact List.mem_cons_self _ _

theorem retry_rpcs_under_lock_witness :
    ∃ pre post,
      retryIterEvents exSt 5 ["n2"] =
        Event.lock :: (pre ++ Event.unlock :: post) ∧
      Event.unlock ∉ pre ∧
      (∀ d, Event.rpc d ∈ retryIterEvents exSt 5 ["n2"] →
        Event.rpc d ∈ pre) ∧
      (pendingEmpty exSt 5 = false → Event.snapshot ∈ pre) :=
  retry_rpcs_under_lock exSt 5 ["n2"]

/-- C3 counterexample: on a state whose pending set for message 5 is the
single peer n2, the iteration trace is lock, snapshot, the RPC to n2, and
only then the release, so it is false that a release precedes every RPC. -/
theorem retry_unlock_before_rpc_counterexample :
    ¬ ∀ l1 d l2, retryIterEvents exSt 5 ["n2"] =
        l1 ++ Event.rpc d :: l2 → Event.unlock ∈ l1 := by
  intro hcl
  have h := hcl [Event.lock, Event.snapshot] ("n2")
    [Event.unlock, Event.sleepEv] (by decide)
  simp at h

end Gossip
